import Mathlib

/-!
Verification of the BookStore inventory service: stock ledger repository
operations, gRPC handlers, event consumer and event publishers, shallowly
embedded from the Go sources.  Go `int32` quantities are modelled as
unbounded `Int` (the database keeps quantities far from the int32 bounds
and PostgreSQL raises on overflow rather than wrapping); `float64` prices
are modelled as `Rat` (the embedded operations only store and copy prices,
never compute with them).
-/

namespace BookStore

/-- An inventory record, one row of the `items` table
(`item_id` is the primary key). -/
structure Item where
  itemID : String
  name : String
  category : String
  quantity : Int
  price : Rat
deriving DecidableEq, Repr

/-- One line of a reservation or release request (`db.ReservedItem`). -/
structure ReservedItem where
  itemID : String
  quantity : Int
deriving DecidableEq, Repr

/-- The committed state of the `items` table, as the list of its rows. -/
abbrev Ledger := List Item

/-- `SELECT ... FROM items WHERE item_id = $1`: the first row with the
given id (the primary key makes it unique in well-formed states). -/
def findItem (l : Ledger) (id : String) : Option Item :=
  l.find? (fun it => it.itemID = id)

/-- The stored quantity of an item, if the row exists. -/
def qty? (l : Ledger) (id : String) : Option Int :=
  (findItem l id).map (fun it => it.quantity)

/-- `UPDATE items SET quantity = quantity + d WHERE item_id = id`:
adds `d` to the quantity of every row whose `item_id` matches. -/
def applyDelta (l : Ledger) (id : String) (d : Int) : Ledger :=
  l.map (fun it => if it.itemID = id then { it with quantity := it.quantity + d } else it)

namespace Repo

/-- Errors returned by `InventoryRepo.ReserveStock`: a line item's row is
absent (`sql.ErrNoRows` from the `SELECT ... FOR UPDATE`), or a line has
insufficient stock. -/
inductive ReserveError where
  | itemNotFound (itemID : String)
  | insufficientStock (itemID : String) (available requested : Int)
deriving DecidableEq, Repr

/-- The message of a `ReserveError`, as formatted by the Go source. -/
def ReserveError.message : ReserveError → String
  | .itemNotFound id => "sql: no rows in result set (item " ++ id ++ ")"
  | .insufficientStock id a r =>
      "insufficient stock for item " ++ id ++ ": available=" ++ toString a ++
        ", requested=" ++ toString r

/-- The per-line loop of `InventoryRepo.ReserveStock`: lock and read the
line's current quantity, fail if it is below the requested quantity,
otherwise decrement and continue with the next line.  `.error` means the
transaction rolled back; `.ok` carries the state the commit installs. -/
def reserveLoop (l : Ledger) : List ReservedItem → Except ReserveError Ledger
  | [] => .ok l
  | ri :: rest =>
    match findItem l ri.itemID with
    | none => .error (.itemNotFound ri.itemID)
    | some it =>
      if it.quantity < ri.quantity then
        .error (.insufficientStock ri.itemID it.quantity ri.quantity)
      else
        reserveLoop (applyDelta l ri.itemID (-ri.quantity)) rest

/-- `InventoryRepo.ReserveStock`: all-or-nothing multi-line decrement in
one transaction. -/
def ReserveStock (orderID : String) (l : Ledger) (reserved : List ReservedItem) :
    Except ReserveError Ledger :=
  reserveLoop l reserved

/-- The committed state after a `ReserveStock` call: the new state on
commit, the unchanged input state on rollback. -/
def reserveStockFinal (orderID : String) (l : Ledger) (reserved : List ReservedItem) :
    Ledger :=
  match ReserveStock orderID l reserved with
  | .ok l' => l'
  | .error _ => l

/-- `InventoryRepo.ReleaseStock`: increment every listed line's quantity
in one transaction; there is no stock-level check and (database faults
aside) no failure path. -/
def ReleaseStock (orderID : String) (l : Ledger) (reserved : List ReservedItem) : Ledger :=
  reserved.foldl (fun acc ri => applyDelta acc ri.itemID ri.quantity) l

/-- `InventoryRepo.UpdateStock`: `UPDATE items SET quantity = quantity +
delta WHERE item_id = $2 RETURNING quantity`; scanning the returned row
fails with `sql.ErrNoRows` when the item is absent. -/
def UpdateStock (l : Ledger) (itemID : String) (delta : Int) :
    Except Unit (Int × Ledger) :=
  match findItem l itemID with
  | none => .error ()
  | some it => .ok (it.quantity + delta, applyDelta l itemID delta)

/-- `InventoryRepo.CreateItem`: `INSERT ... ON CONFLICT (item_id) DO
NOTHING` — appends the row unless the id already exists, and never
reports a conflict as an error. -/
def CreateItem (l : Ledger) (item : Item) : Ledger :=
  if l.any (fun it => it.itemID = item.itemID) then l else l ++ [item]

/-- `InventoryRepo.DeleteItem`: hard delete; error when no row matched. -/
def DeleteItem (l : Ledger) (itemID : String) : Except String Ledger :=
  if l.any (fun it => it.itemID = itemID) then
    .ok (l.filter (fun it => ¬ it.itemID = itemID))
  else
    .error ("item not found: " ++ itemID)

end Repo

/-! Specification-side helper: the total quantity a request demands of a
given item, and the demand of a prefix of the request. -/

/-- Total quantity the request lines demand of item `id`. -/
def totalDemand (reserved : List ReservedItem) (id : String) : Int :=
  ((reserved.filter (fun r => r.itemID = id)).map (fun r => r.quantity)).sum

/-- Every row of the ledger has a nonnegative quantity. -/
def NonnegLedger (l : Ledger) : Prop :=
  ∀ it ∈ l, 0 ≤ it.quantity

instance : DecidablePred NonnegLedger := fun l =>
  inferInstanceAs (Decidable (∀ it ∈ l, 0 ≤ it.quantity))

/-- The ledger a successful reservation commits: every row's quantity
decremented by the request's total demand of its item. -/
def reserveResultLedger (l : Ledger) (reserved : List ReservedItem) : Ledger :=
  l.map (fun it => { it with quantity := it.quantity - totalDemand reserved it.itemID })

namespace Server

/-! gRPC handlers of the inventory service (`internal/grpc` server).
An RPC outcome is `Except GrpcError`: `.error` is a transport-level
gRPC status, `.ok` a normal response.  Handlers that publish an event
take the publish outcome `pubOk` as a parameter; the Go code only logs
a publish failure. -/

/-- gRPC status codes used by the inventory server. -/
inductive GrpcCode where
  | internal
  | notFound
deriving DecidableEq, Repr

/-- A transport-level gRPC error (`status.Errorf`). -/
structure GrpcError where
  code : GrpcCode
  message : String
deriving DecidableEq, Repr

/-- `inventorypb.CheckAvailabilityResponse`. -/
structure CheckAvailabilityResponse where
  available : Bool
  availableQuantity : Int
  message : String
deriving DecidableEq, Repr

/-- `inventorypb.ReserveStockResponse`.  The generated protobuf type is
not under `src/`; the gateway reads a `failed_items` list field from it,
modelled here as a list of line items (its default value is the empty
list). -/
structure ReserveStockResponse where
  success : Bool
  message : String
  failedItems : List ReservedItem
deriving DecidableEq, Repr

/-- `inventorypb.ReleaseStockResponse`. -/
structure ReleaseStockResponse where
  success : Bool
  message : String
deriving DecidableEq, Repr

/-- `inventorypb.UpdateStockResponse`. -/
structure UpdateStockResponse where
  success : Bool
  message : String
  newQuantity : Int
deriving DecidableEq, Repr

/-- `Server.GetItem`: `NotFound` fault when the item is absent. -/
def GetItem (l : Ledger) (itemID : String) : Except GrpcError Item :=
  match findItem l itemID with
  | none => .error ⟨.notFound, "item not found: " ++ itemID⟩
  | some it => .ok it

/-- `Server.CheckAvailability`: an absent item is a normal response, not
a fault. -/
def CheckAvailability (l : Ledger) (itemID : String) (requestedQuantity : Int) :
    Except GrpcError CheckAvailabilityResponse :=
  match findItem l itemID with
  | none => .ok ⟨false, 0, "Item not found"⟩
  | some it =>
    if it.quantity ≥ requestedQuantity then
      .ok ⟨true, it.quantity, "Available"⟩
    else
      .ok ⟨false, it.quantity,
        "Insufficient stock: requested=" ++ toString requestedQuantity ++
          ", available=" ++ toString it.quantity⟩

/-- `Server.ReserveStock`: a repository failure becomes a structured
`success = false` response (never a gRPC fault); on success the handler
publishes a stock-reserved event, logging — and otherwise ignoring — a
publish failure, and answers `success = true`.  The handler never sets
the response's `failed_items` field.  Returns the response together with
the committed ledger state. -/
def ReserveStock (l : Ledger) (orderID : String) (items : List ReservedItem)
    (pubOk : Bool) : Except GrpcError (ReserveStockResponse × Ledger) :=
  match Repo.ReserveStock orderID l items with
  | .error e =>
      .ok (⟨false, "Failed to reserve stock: " ++ e.message, []⟩, l)
  | .ok l' =>
      .ok (⟨true, "Stock reserved successfully", []⟩, l')

/-- `Server.ReleaseStock`: symmetric to `ReserveStock`; the repository
release has no stock-level failure path. -/
def ReleaseStock (l : Ledger) (orderID : String) (items : List ReservedItem)
    (pubOk : Bool) : Except GrpcError (ReleaseStockResponse × Ledger) :=
  .ok (⟨true, "Stock released successfully"⟩, Repo.ReleaseStock orderID l items)

/-- `Server.UpdateStock`: a repository error (absent item) is an
`Internal` fault; otherwise publishes a stock-updated event (failure
only logged) and answers with the new quantity. -/
def UpdateStock (l : Ledger) (itemID : String) (delta : Int) (pubOk : Bool) :
    Except GrpcError (UpdateStockResponse × Ledger) :=
  match Repo.UpdateStock l itemID delta with
  | .error _ => .error ⟨.internal, "failed to update stock"⟩
  | .ok (newQuantity, l') =>
      .ok (⟨true, "Stock updated successfully", newQuantity⟩, l')

end Server

namespace Consumer

/-! Event consumer of the inventory service (`internal/events/consumer.go`).
A message body is abstracted by the outcome of `json.Unmarshal` into each
of the four event schemas: `none` means unmarshalling that schema fails. -/

/-- One order line of an `order.created` / `order.cancelled` payload. -/
structure OrderLine where
  sku : String
  quantity : Int
  price : Rat
deriving DecidableEq, Repr

/-- Parsed payload of an `order.created` event. -/
structure OrderCreatedPayload where
  orderID : String
  userID : String
  items : List OrderLine
deriving DecidableEq, Repr

/-- Parsed payload of an `order.cancelled` event. -/
structure OrderCancelledPayload where
  orderID : String
  reason : String
  items : List OrderLine
deriving DecidableEq, Repr

/-- Parsed payload of a `catalog.created` event (price in cents). -/
structure CatalogCreatedPayload where
  sku : String
  title : String
  author : String
  price : Int
  currency : String
  category : String
  active : Bool
deriving DecidableEq, Repr

/-- Parsed payload of a `catalog.deleted` event. -/
structure CatalogDeletedPayload where
  sku : String
deriving DecidableEq, Repr

/-- A delivered message: its routing key and, per event schema, the
payload the body unmarshals into (`none` when unmarshalling fails). -/
structure Message where
  routingKey : String
  orderCreated? : Option OrderCreatedPayload
  orderCancelled? : Option OrderCancelledPayload
  catalogCreated? : Option CatalogCreatedPayload
  catalogDeleted? : Option CatalogDeletedPayload
deriving DecidableEq, Repr

/-- The acknowledgment the handler sends for a message:
`Ack(false)`, `Nack(false, true)` (requeue) or `Nack(false, false)`. -/
inductive AckAction where
  | ack
  | nackRequeue
  | nackDiscard
deriving DecidableEq, Repr

/-- `Consumer.handleOrderCreated`: unmarshal, reserve stock, ack on
success; nack-discard on a malformed body, nack-requeue on any
reservation failure (stock state never changed on failure). -/
def handleOrderCreated (l : Ledger) (msg : Message) : AckAction × Ledger :=
  match msg.orderCreated? with
  | none => (.nackDiscard, l)
  | some ev =>
    let reserved := ev.items.map (fun it => ReservedItem.mk it.sku it.quantity)
    match Repo.ReserveStock ev.orderID l reserved with
    | .error _ => (.nackRequeue, l)
    | .ok l' => (.ack, l')

/-- `Consumer.handleOrderCancelled`: unmarshal, release stock, ack;
nack-discard on a malformed body. -/
def handleOrderCancelled (l : Ledger) (msg : Message) : AckAction × Ledger :=
  match msg.orderCancelled? with
  | none => (.nackDiscard, l)
  | some ev =>
    let reserved := ev.items.map (fun it => ReservedItem.mk it.sku it.quantity)
    (.ack, Repo.ReleaseStock ev.orderID l reserved)

/-- `Consumer.handleCatalogCreated`: create the ledger item with
quantity 0, converting the price from cents to dollars; nack-discard on
a malformed body. -/
def handleCatalogCreated (l : Ledger) (msg : Message) : AckAction × Ledger :=
  match msg.catalogCreated? with
  | none => (.nackDiscard, l)
  | some ev =>
    let item : Item :=
      { itemID := ev.sku, name := ev.title, category := ev.category,
        quantity := 0, price := (ev.price : Rat) / 100 }
    (.ack, Repo.CreateItem l item)

/-- `Consumer.handleCatalogDeleted`: delete the ledger item;
nack-discard on a malformed body, nack-requeue when the delete fails. -/
def handleCatalogDeleted (l : Ledger) (msg : Message) : AckAction × Ledger :=
  match msg.catalogDeleted? with
  | none => (.nackDiscard, l)
  | some ev =>
    match Repo.DeleteItem l ev.sku with
    | .error _ => (.nackRequeue, l)
    | .ok l' => (.ack, l')

/-- `Consumer.handleMessage`: dispatch on the routing key; an unknown
key is nacked without requeue. -/
def handleMessage (l : Ledger) (msg : Message) : AckAction × Ledger :=
  if msg.routingKey = "order.created" then handleOrderCreated l msg
  else if msg.routingKey = "order.cancelled" then handleOrderCancelled l msg
  else if msg.routingKey = "catalog.created" then handleCatalogCreated l msg
  else if msg.routingKey = "catalog.deleted" then handleCatalogDeleted l msg
  else (.nackDiscard, l)

end Consumer

namespace CatalogEvents

/-! The catalog service's event publisher (`publishWithRetry`): confirmed
publication with bounded retry and exponential backoff.  Durations are in
milliseconds. -/

/-- `maxRetries = 3`. -/
def maxRetries : Nat := 3

/-- `initialBackoff = 100 * time.Millisecond`. -/
def initialBackoff : Nat := 100

/-- `maxBackoff = 5 * time.Second`. -/
def maxBackoff : Nat := 5000

/-- What one publish attempt observes: the send call errors, the broker
confirms positively, the broker nacks, the 5 s confirmation wait times
out, or the caller's context is cancelled during the confirmation wait. -/
inductive AttemptOutcome where
  | sendError
  | acked
  | nacked
  | confirmTimeout
  | ctxDoneAtConfirm
deriving DecidableEq, Repr

/-- The environment of a publication: whether the caller's context is
already cancelled during the backoff wait before a given attempt, and
what each attempt observes. -/
structure PublishEnv where
  cancelledBefore : Nat → Bool
  outcome : Nat → AttemptOutcome

/-- Result of a publication. -/
inductive PublishResult where
  | published
  | ctxError
  | exhausted
deriving DecidableEq, Repr

/-- Trace of a publication: its result, how many send attempts ran, and
the backoff intervals slept between attempts. -/
structure PublishRun where
  result : PublishResult
  attempts : Nat
  sleeps : List Nat
deriving DecidableEq, Repr

/-- The retry loop of `publishWithRetry`: attempt, and — when the loop
is not on its last iteration — on send error / nack / confirmation
timeout sleep the current backoff (unless the context is cancelled
first), double it capped at `maxBackoff`, and retry; the loop body runs
at most `fuel` more times. -/
def retryGo (env : PublishEnv) : Nat → Nat → Nat → PublishRun
  | 0, _, _ => ⟨.exhausted, 0, []⟩
  | 1, attempt, _ =>
    match env.outcome attempt with
    | .acked => ⟨.published, 1, []⟩
    | .ctxDoneAtConfirm => ⟨.ctxError, 1, []⟩
    | _ => ⟨.exhausted, 1, []⟩
  | fuel + 2, attempt, backoff =>
    match env.outcome attempt with
    | .acked => ⟨.published, 1, []⟩
    | .ctxDoneAtConfirm => ⟨.ctxError, 1, []⟩
    | _ =>
      if env.cancelledBefore (attempt + 1) then ⟨.ctxError, 1, []⟩
      else
        let rest := retryGo env (fuel + 1) (attempt + 1) (min (backoff * 2) maxBackoff)
        ⟨rest.result, rest.attempts + 1, backoff :: rest.sleeps⟩

/-- `publishWithRetry`: up to `maxRetries` attempts starting from
`initialBackoff`. -/
def publishWithRetry (env : PublishEnv) : PublishRun :=
  retryGo env maxRetries 0 initialBackoff

end CatalogEvents

namespace InventoryEvents

/-- The inventory service's `Publisher.PublishEvent`: one unconfirmed
`channel.Publish` call — no confirmation wait, no retry, no backoff.
`sendOk` is whether that single send succeeds; the second component is
the number of send attempts performed (always 1). -/
def PublishEvent (sendOk : Bool) : Except String Unit × Nat :=
  (if sendOk then .ok () else .error "failed to publish event", 1)

end InventoryEvents

/-! ### Basic lemmas about ledger primitives -/

theorem itemID_update (it : Item) (id : String) (d : Int) :
    (if it.itemID = id then { it with quantity := it.quantity + d } else it).itemID
      = it.itemID := by
  split <;> rfl

theorem findItem_map (f : Item → Item) (hf : ∀ it, (f it).itemID = it.itemID)
    (l : Ledger) (id : String) :
    findItem (l.map f) id = (findItem l id).map f := by
  unfold findItem
  induction l with
  | nil => rfl
  | cons hd tl ih =>
    rw [List.map_cons]
    by_cases h : hd.itemID = id
    · rw [List.find?_cons_of_pos _ (by simpa [hf] using h),
        List.find?_cons_of_pos _ (by simpa using h)]
      rfl
    · rw [List.find?_cons_of_neg _ (by simpa [hf] using h),
        List.find?_cons_of_neg _ (by simpa using h)]
      exact ih

theorem findItem_applyDelta (l : Ledger) (id id' : String) (d : Int) :
    findItem (applyDelta l id d) id' =
      (findItem l id').map
        (fun it => if it.itemID = id then { it with quantity := it.quantity + d } else it) :=
  findItem_map _ (fun it => itemID_update it id d) l id'

theorem findItem_itemID (l : Ledger) (id : String) (it : Item)
    (h : findItem l id = some it) : it.itemID = id := by
  have := List.find?_some h
  exact of_decide_eq_true this

theorem qty?_applyDelta (l : Ledger) (id id' : String) (d : Int) (q : Int)
    (h : qty? l id' = some q) :
    qty? (applyDelta l id d) id' = some (if id' = id then q + d else q) := by
  unfold qty? at *
  rw [findItem_applyDelta]
  match hfind : findItem l id' with
  | none => rw [hfind] at h; simp at h
  | some it =>
    rw [hfind] at h
    simp only [Option.map_some'] at h ⊢
    have hid : it.itemID = id' := findItem_itemID l id' it hfind
    have hq : it.quantity = q := by simpa using h
    by_cases hcase : id' = id
    · rw [hid, if_pos hcase, if_pos hcase, hq]
    · rw [hid, if_neg hcase, if_neg hcase, hq]

theorem isSome_findItem_applyDelta (l : Ledger) (id id' : String) (d : Int) :
    (findItem (applyDelta l id d) id').isSome = (findItem l id').isSome := by
  rw [findItem_applyDelta]
  match hfind : findItem l id' with
  | none => rfl
  | some it => rfl

theorem totalDemand_nil (id : String) : totalDemand [] id = 0 := rfl

theorem totalDemand_cons (ri : ReservedItem) (rest : List ReservedItem) (id : String) :
    totalDemand (ri :: rest) id =
      (if ri.itemID = id then ri.quantity else 0) + totalDemand rest id := by
  by_cases h : ri.itemID = id
  · simp [totalDemand, List.filter, h]
  · simp [totalDemand, List.filter, h]

theorem mapItemID_applyDelta (l : Ledger) (id : String) (d : Int) :
    (applyDelta l id d).map Item.itemID = l.map Item.itemID := by
  unfold applyDelta
  rw [List.map_map]
  exact List.map_congr_left (fun it _ => itemID_update it id d)

theorem reserveResultLedger_nil (l : Ledger) : reserveResultLedger l [] = l := by
  unfold reserveResultLedger
  have : ∀ it ∈ l,
      ({ it with quantity := it.quantity - totalDemand [] it.itemID } : Item) = it := by
    intro it _
    cases it
    simp [totalDemand_nil]
  rw [List.map_congr_left this]
  exact List.map_id' l

theorem reserveResultLedger_cons (l : Ledger) (ri : ReservedItem)
    (rest : List ReservedItem) :
    reserveResultLedger (applyDelta l ri.itemID (-ri.quantity)) rest =
      reserveResultLedger l (ri :: rest) := by
  unfold reserveResultLedger applyDelta
  rw [List.map_map]
  refine List.map_congr_left (fun it _ => ?_)
  by_cases h : it.itemID = ri.itemID
  · simp only [Function.comp, if_pos h, totalDemand_cons, if_pos h.symm]
    cases it
    simp only [Item.mk.injEq, and_true, true_and]
    omega
  · have h' : ¬ ri.itemID = it.itemID := fun hc => h hc.symm
    simp only [Function.comp, if_neg h, totalDemand_cons, if_neg h']
    cases it
    simp only [Item.mk.injEq, and_true, true_and]
    omega

/-! ### Characterization of the reservation loop -/

theorem reserveLoop_ok : ∀ (rs : List ReservedItem) (l : Ledger),
    (∀ ri ∈ rs, (findItem l ri.itemID).isSome = true) →
    (∀ i (h : i < rs.length),
      (rs.get ⟨i, h⟩).quantity ≤
        (qty? l (rs.get ⟨i, h⟩).itemID).getD 0 -
          totalDemand (rs.take i) (rs.get ⟨i, h⟩).itemID) →
    Repo.reserveLoop l rs = .ok (reserveResultLedger l rs)
  | [], l, _, _ => by
      rw [reserveResultLedger_nil]; rfl
  | ri :: rest, l, hex, hav => by
      have hriex : (findItem l ri.itemID).isSome = true :=
        hex ri (List.mem_cons_self _ _)
      rcases hfind : findItem l ri.itemID with _ | it0
      · rw [hfind] at hriex; simp at hriex
      · have hq0 : qty? l ri.itemID = some it0.quantity := by
          unfold qty?; rw [hfind]; rfl
        have hav0 := hav 0 (Nat.succ_pos _)
        simp only [List.get, List.take, totalDemand_nil, hq0, Option.getD_some] at hav0
        have hnotlt : ¬ it0.quantity < ri.quantity := not_lt.mpr (by omega)
        have hex' : ∀ r ∈ rest,
            (findItem (applyDelta l ri.itemID (-ri.quantity)) r.itemID).isSome = true := by
          intro r hr
          rw [isSome_findItem_applyDelta]
          exact hex r (List.mem_cons_of_mem _ hr)
        have hav' : ∀ i (h : i < rest.length),
            (rest.get ⟨i, h⟩).quantity ≤
              (qty? (applyDelta l ri.itemID (-ri.quantity))
                  (rest.get ⟨i, h⟩).itemID).getD 0 -
                totalDemand (rest.take i) (rest.get ⟨i, h⟩).itemID := by
          intro i h
          have hmem : rest.get ⟨i, h⟩ ∈ rest := List.get_mem rest i h
          have hexi := hex _ (List.mem_cons_of_mem _ hmem)
          rcases hfq : findItem l (rest.get ⟨i, h⟩).itemID with _ | itr
          · rw [hfq] at hexi; simp at hexi
          · have hqr : qty? l (rest.get ⟨i, h⟩).itemID = some itr.quantity := by
              unfold qty?; rw [hfq]; rfl
            have hq1 := qty?_applyDelta l ri.itemID (rest.get ⟨i, h⟩).itemID
              (-ri.quantity) itr.quantity hqr
            have hav1 := hav (i + 1) (Nat.succ_lt_succ h)
            simp only [List.get, List.take, totalDemand_cons, hqr, Option.getD_some] at hav1
            rw [hq1]
            by_cases hc : (rest.get ⟨i, h⟩).itemID = ri.itemID
            · rw [if_pos hc.symm] at hav1
              rw [if_pos hc, Option.getD_some]
              omega
            · rw [if_neg (fun hcc => hc hcc.symm)] at hav1
              rw [if_neg hc, Option.getD_some]
              omega
        show Repo.reserveLoop l (ri :: rest) = _
        simp only [Repo.reserveLoop, hfind, if_neg hnotlt]
        rw [reserveLoop_ok rest (applyDelta l ri.itemID (-ri.quantity)) hex' hav']
        rw [reserveResultLedger_cons]

theorem reserveLoop_err : ∀ (rs : List ReservedItem) (l : Ledger),
    (∀ ri ∈ rs, (findItem l ri.itemID).isSome = true) →
    (∃ i, ∃ h : i < rs.length,
      (qty? l (rs.get ⟨i, h⟩).itemID).getD 0 -
        totalDemand (rs.take i) (rs.get ⟨i, h⟩).itemID <
        (rs.get ⟨i, h⟩).quantity) →
    ∃ id a r, Repo.reserveLoop l rs = .error (.insufficientStock id a r)
  | [], _, _, hbad => by
      rcases hbad with ⟨i, h, _⟩
      exact absurd h (by simp)
  | ri :: rest, l, hex, hbad => by
      have hriex : (findItem l ri.itemID).isSome = true :=
        hex ri (List.mem_cons_self _ _)
      rcases hfind : findItem l ri.itemID with _ | it0
      · rw [hfind] at hriex; simp at hriex
      · have hq0 : qty? l ri.itemID = some it0.quantity := by
          unfold qty?; rw [hfind]; rfl
        by_cases hlt : it0.quantity < ri.quantity
        · refine ⟨ri.itemID, it0.quantity, ri.quantity, ?_⟩
          simp only [Repo.reserveLoop, hfind, if_pos hlt]
        · have hex' : ∀ r ∈ rest,
              (findItem (applyDelta l ri.itemID (-ri.quantity)) r.itemID).isSome = true := by
            intro r hr
            rw [isSome_findItem_applyDelta]
            exact hex r (List.mem_cons_of_mem _ hr)
          have hbad' : ∃ i, ∃ h : i < rest.length,
              (qty? (applyDelta l ri.itemID (-ri.quantity))
                  (rest.get ⟨i, h⟩).itemID).getD 0 -
                totalDemand (rest.take i) (rest.get ⟨i, h⟩).itemID <
                (rest.get ⟨i, h⟩).quantity := by
            rcases hbad with ⟨i, hi, hviol⟩
            match i with
            | 0 =>
              simp only [List.get, List.take, totalDemand_nil, hq0, Option.getD_some] at hviol
              omega
            | i + 1 =>
              have h' : i < rest.length := Nat.lt_of_succ_lt_succ hi
              refine ⟨i, h', ?_⟩
              have hmem : rest.get ⟨i, h'⟩ ∈ rest := List.get_mem rest i h'
              have hexi := hex _ (List.mem_cons_of_mem _ hmem)
              rcases hfq : findItem l (rest.get ⟨i, h'⟩).itemID with _ | itr
              · rw [hfq] at hexi; simp at hexi
              · have hqr : qty? l (rest.get ⟨i, h'⟩).itemID = some itr.quantity := by
                  unfold qty?; rw [hfq]; rfl
                have hq1 := qty?_applyDelta l ri.itemID (rest.get ⟨i, h'⟩).itemID
                  (-ri.quantity) itr.quantity hqr
                simp only [List.get, List.take, totalDemand_cons, hqr,
                  Option.getD_some] at hviol
                rw [hq1]
                by_cases hc : (rest.get ⟨i, h'⟩).itemID = ri.itemID
                · rw [if_pos hc.symm] at hviol
                  rw [if_pos hc, Option.getD_some]
                  omega
                · rw [if_neg (fun hcc => hc hcc.symm)] at hviol
                  rw [if_neg hc, Option.getD_some]
                  omega
          rcases reserveLoop_err rest (applyDelta l ri.itemID (-ri.quantity)) hex' hbad'
            with ⟨id, a, r, hrec⟩
          refine ⟨id, a, r, ?_⟩
          simp only [Repo.reserveLoop, hfind, if_neg hlt]
          exact hrec

theorem reserveLoop_ok_eq : ∀ (rs : List ReservedItem) (l l' : Ledger),
    Repo.reserveLoop l rs = .ok l' → l' = reserveResultLedger l rs
  | [], l, l', h => by
      rw [reserveResultLedger_nil]
      have : Except.ok (ε := Repo.ReserveError) l = .ok l' := h
      simpa using this.symm
  | ri :: rest, l, l', h => by
      rcases hfind : findItem l ri.itemID with _ | it0
      · simp only [Repo.reserveLoop, hfind] at h
        exact absurd h (by simp)
      · by_cases hlt : it0.quantity < ri.quantity
        · simp only [Repo.reserveLoop, hfind, if_pos hlt] at h
          exact absurd h (by simp)
        · simp only [Repo.reserveLoop, hfind, if_neg hlt] at h
          rw [← reserveResultLedger_cons]
          exact reserveLoop_ok_eq rest (applyDelta l ri.itemID (-ri.quantity)) l' h

/-! ### Release characterization and nonnegativity lemmas -/

theorem releaseStock_eq_map : ∀ (rs : List ReservedItem) (l : Ledger) (oid : String),
    Repo.ReleaseStock oid l rs =
      l.map (fun it => { it with quantity := it.quantity + totalDemand rs it.itemID })
  | [], l, oid => by
      have : ∀ it ∈ l,
          ({ it with quantity := it.quantity + totalDemand [] it.itemID } : Item) = it := by
        intro it _
        cases it
        simp [totalDemand_nil]
      have hmap : l.map
          (fun it => { it with quantity := it.quantity + totalDemand [] it.itemID }) = l := by
        rw [List.map_congr_left this]
        exact List.map_id' l
      rw [hmap]
      rfl
  | ri :: rest, l, oid => by
      have hstep : Repo.ReleaseStock oid l (ri :: rest) =
          Repo.ReleaseStock oid (applyDelta l ri.itemID ri.quantity) rest := rfl
      rw [hstep, releaseStock_eq_map rest (applyDelta l ri.itemID ri.quantity) oid]
      unfold applyDelta
      rw [List.map_map]
      refine List.map_congr_left (fun it _ => ?_)
      by_cases h : it.itemID = ri.itemID
      · simp only [Function.comp, if_pos h, totalDemand_cons, if_pos h.symm]
        cases it
        simp only [Item.mk.injEq, and_true, true_and]
        omega
      · have hne : ¬ ri.itemID = it.itemID := fun hc => h hc.symm
        simp only [Function.comp, if_neg h, totalDemand_cons, if_neg hne]
        cases it
        simp only [Item.mk.injEq, and_true, true_and]
        omega

theorem totalDemand_nonneg (rs : List ReservedItem) (id : String)
    (h : ∀ ri ∈ rs, 0 ≤ ri.quantity) : 0 ≤ totalDemand rs id := by
  refine List.sum_nonneg ?_
  intro x hx
  rcases List.mem_map.mp hx with ⟨r, hr, rfl⟩
  exact h r (List.mem_of_mem_filter hr)

theorem findItem_of_nodup : ∀ (l : Ledger), (l.map Item.itemID).Nodup →
    ∀ r ∈ l, findItem l r.itemID = some r
  | [], _, r, hr => by cases hr
  | hd :: tl, hnd, r, hr => by
      rw [List.map_cons, List.nodup_cons] at hnd
      rcases List.mem_cons.mp hr with rfl | htl
      · unfold findItem
        exact List.find?_cons_of_pos _ (by simp)
      · have hne : ¬ hd.itemID = r.itemID := by
          intro hc
          exact hnd.1 (hc ▸ List.mem_map_of_mem Item.itemID htl)
        unfold findItem
        rw [List.find?_cons_of_neg _ (by simpa using hne)]
        exact findItem_of_nodup tl hnd.2 r htl

theorem reserveLoop_nonneg : ∀ (rs : List ReservedItem) (l l' : Ledger),
    (l.map Item.itemID).Nodup → NonnegLedger l →
    Repo.reserveLoop l rs = .ok l' → NonnegLedger l'
  | [], l, l', _, hnn, h => by
      have h' : (Except.ok l : Except Repo.ReserveError Ledger) = .ok l' := h
      have : l = l' := by simpa using h'
      exact this ▸ hnn
  | ri :: rest, l, l', hnd, hnn, h => by
      rcases hfind : findItem l ri.itemID with _ | it0
      · simp only [Repo.reserveLoop, hfind] at h
        exact absurd h (by simp)
      · by_cases hlt : it0.quantity < ri.quantity
        · simp only [Repo.reserveLoop, hfind, if_pos hlt] at h
          exact absurd h (by simp)
        · simp only [Repo.reserveLoop, hfind, if_neg hlt] at h
          refine reserveLoop_nonneg rest (applyDelta l ri.itemID (-ri.quantity)) l' ?_ ?_ h
          · rw [mapItemID_applyDelta]; exact hnd
          · intro r hr
            rcases List.mem_map.mp hr with ⟨r0, hr0, rfl⟩
            by_cases hc : r0.itemID = ri.itemID
            · have hfr0 : findItem l ri.itemID = some r0 := by
                rw [← hc]; exact findItem_of_nodup l hnd r0 hr0
              have hr0eq : r0 = it0 := by rw [hfr0] at hfind; simpa using hfind
              rw [if_pos hc, hr0eq]
              show 0 ≤ it0.quantity + -ri.quantity
              omega
            · rw [if_neg hc]
              exact hnn r0 hr0

theorem releaseStock_nonneg (oid : String) (l : Ledger) (rs : List ReservedItem)
    (hnn : NonnegLedger l) (hq : ∀ ri ∈ rs, 0 ≤ ri.quantity) :
    NonnegLedger (Repo.ReleaseStock oid l rs) := by
  rw [releaseStock_eq_map]
  intro r hr
  rcases List.mem_map.mp hr with ⟨r0, hr0, rfl⟩
  have h1 := hnn r0 hr0
  have h2 := totalDemand_nonneg rs r0.itemID hq
  show 0 ≤ r0.quantity + totalDemand rs r0.itemID
  omega

/-! ### Claim theorems -/

/-- C1: a `reserveStock` call whose line items all exist and whose every
line, at the moment it is checked, finds a current quantity at least the
line's requested quantity, succeeds, and the committed state decrements
every line's quantity by the requested total; a call in which some
line's current quantity falls short fails with an insufficient-stock
error and leaves every item's quantity unchanged (no partial
reservation).  The current quantity at line `i` is the starting quantity
minus the demand of the earlier lines of the same request. -/
theorem spec_C1 :
    (∀ (oid : String) (l : Ledger) (rs : List ReservedItem),
      (∀ ri ∈ rs, (findItem l ri.itemID).isSome = true) →
      (∀ i (h : i < rs.length),
        (rs.get ⟨i, h⟩).quantity ≤
          (qty? l (rs.get ⟨i, h⟩).itemID).getD 0 -
            totalDemand (rs.take i) (rs.get ⟨i, h⟩).itemID) →
      Repo.ReserveStock oid l rs = .ok (reserveResultLedger l rs) ∧
        Repo.reserveStockFinal oid l rs = reserveResultLedger l rs) ∧
    (∀ (oid : String) (l : Ledger) (rs : List ReservedItem),
      (∀ ri ∈ rs, (findItem l ri.itemID).isSome = true) →
      (∃ i, ∃ h : i < rs.length,
        (qty? l (rs.get ⟨i, h⟩).itemID).getD 0 -
          totalDemand (rs.take i) (rs.get ⟨i, h⟩).itemID <
          (rs.get ⟨i, h⟩).quantity) →
      (∃ id a r, Repo.ReserveStock oid l rs = .error (.insufficientStock id a r)) ∧
        Repo.reserveStockFinal oid l rs = l) := by
  constructor
  · intro oid l rs hex hav
    have h := reserveLoop_ok rs l hex hav
    have h' : Repo.ReserveStock oid l rs = .ok (reserveResultLedger l rs) := h
    refine ⟨h', ?_⟩
    unfold Repo.reserveStockFinal
    rw [h']
  · intro oid l rs hex hbad
    rcases reserveLoop_err rs l hex hbad with ⟨id, a, r, herr⟩
    have herr' : Repo.ReserveStock oid l rs = .error (.insufficientStock id a r) := herr
    refine ⟨⟨id, a, r, herr'⟩, ?_⟩
    unfold Repo.reserveStockFinal
    rw [herr']

/-- Witness for C1 at concrete inputs: a two-line request against
sufficient stock commits both decrements; a two-line request whose
second line exceeds stock fails with an insufficient-stock error and
changes nothing. -/
theorem spec_C1_witness :
    ((∀ ri ∈ ([⟨"A", 3⟩, ⟨"B", 4⟩] : List ReservedItem),
        (findItem [⟨"A", "na", "ca", 5, 1⟩, ⟨"B", "nb", "cb", 4, 2⟩] ri.itemID).isSome
          = true) ∧
      Repo.ReserveStock "o1" [⟨"A", "na", "ca", 5, 1⟩, ⟨"B", "nb", "cb", 4, 2⟩]
          [⟨"A", 3⟩, ⟨"B", 4⟩] =
        .ok (reserveResultLedger [⟨"A", "na", "ca", 5, 1⟩, ⟨"B", "nb", "cb", 4, 2⟩]
          [⟨"A", 3⟩, ⟨"B", 4⟩])) ∧
    ((∃ id a r,
        Repo.ReserveStock "o2" [⟨"A", "na", "ca", 5, 1⟩, ⟨"B", "nb", "cb", 4, 2⟩]
            [⟨"A", 3⟩, ⟨"B", 5⟩] =
          .error (.insufficientStock id a r)) ∧
      Repo.reserveStockFinal "o2" [⟨"A", "na", "ca", 5, 1⟩, ⟨"B", "nb", "cb", 4, 2⟩]
          [⟨"A", 3⟩, ⟨"B", 5⟩] =
        [⟨"A", "na", "ca", 5, 1⟩, ⟨"B", "nb", "cb", 4, 2⟩]) := by
  refine ⟨⟨by decide, ?_⟩, ?_⟩
  · exact (spec_C1.1 "o1" [⟨"A", "na", "ca", 5, 1⟩, ⟨"B", "nb", "cb", 4, 2⟩]
      [⟨"A", 3⟩, ⟨"B", 4⟩] (by decide) (by decide)).1
  · exact spec_C1.2 "o2" [⟨"A", "na", "ca", 5, 1⟩, ⟨"B", "nb", "cb", 4, 2⟩]
      [⟨"A", 3⟩, ⟨"B", 5⟩] (by decide) ⟨1, by decide, by decide⟩

/-- C10: line items are processed sequentially in the listed order and
each line's check reads the quantity already decremented by earlier
lines; a request listing the same item twice succeeds exactly when the
starting quantity covers the sum of both lines, and when only each line
individually is covered, the second line's check reads the
already-decremented quantity and fails. -/
theorem spec_C10 (oid id nm cat : String) (p : Rat) (q a b : Int) (hb : 0 ≤ b) :
    ((∃ l', Repo.ReserveStock oid [⟨id, nm, cat, q, p⟩] [⟨id, a⟩, ⟨id, b⟩] = .ok l') ↔
      a + b ≤ q) ∧
    (a ≤ q → q < a + b →
      Repo.ReserveStock oid [⟨id, nm, cat, q, p⟩] [⟨id, a⟩, ⟨id, b⟩] =
        .error (.insufficientStock id (q - a) b)) := by
  have hfind1 : findItem [⟨id, nm, cat, q, p⟩] id = some ⟨id, nm, cat, q, p⟩ := by
    unfold findItem
    exact List.find?_cons_of_pos _ (by simp)
  have happly : applyDelta [⟨id, nm, cat, q, p⟩] id (-a) = [⟨id, nm, cat, q + -a, p⟩] := by
    simp [applyDelta]
  have hfind2 : findItem [⟨id, nm, cat, q + -a, p⟩] id = some ⟨id, nm, cat, q + -a, p⟩ := by
    unfold findItem
    exact List.find?_cons_of_pos _ (by simp)
  by_cases h1 : q < a
  · have hrun : Repo.ReserveStock oid [⟨id, nm, cat, q, p⟩] [⟨id, a⟩, ⟨id, b⟩] =
        .error (.insufficientStock id q a) := by
      simp only [Repo.ReserveStock, Repo.reserveLoop, hfind1]
      simp [h1]
    constructor
    · rw [hrun]
      constructor
      · rintro ⟨l', hl'⟩
        exact absurd hl' (by simp)
      · intro hab
        exact absurd h1 (by omega)
    · intro ha _
      exact absurd ha (by omega)
  · by_cases h2 : q + -a < b
    · have hrun : Repo.ReserveStock oid [⟨id, nm, cat, q, p⟩] [⟨id, a⟩, ⟨id, b⟩] =
          .error (.insufficientStock id (q + -a) b) := by
        simp only [Repo.ReserveStock, Repo.reserveLoop, hfind1]
        simp only [happly]
        simp only [Repo.reserveLoop, hfind2]
        simp [h1, h2]
      have hsub : q + -a = q - a := by omega
      rw [hsub] at hrun
      constructor
      · rw [hrun]
        constructor
        · rintro ⟨l', hl'⟩
          exact absurd hl' (by simp)
        · intro hab
          exact absurd h2 (by omega)
      · intro _ _
        exact hrun
    · have hrun : Repo.ReserveStock oid [⟨id, nm, cat, q, p⟩] [⟨id, a⟩, ⟨id, b⟩] =
          .ok [⟨id, nm, cat, q + -a + -b, p⟩] := by
        simp only [Repo.ReserveStock, Repo.reserveLoop, hfind1]
        simp only [happly]
        simp only [Repo.reserveLoop, hfind2]
        simp [h1, h2, applyDelta]
      constructor
      · rw [hrun]
        constructor
        · intro _
          omega
        · intro _
          exact ⟨_, rfl⟩
      · intro _ hab
        exact absurd hab (by omega)

/-- Witness for C10: quantity 5 covers each of two 3-unit lines
individually but not their sum, so the duplicate-line request fails. -/
theorem spec_C10_witness :
    (0 ≤ (3 : Int)) ∧
    (((∃ l', Repo.ReserveStock "o" [⟨"A", "n", "c", 5, 1⟩] [⟨"A", 3⟩, ⟨"A", 3⟩] = .ok l') ↔
        (3 : Int) + 3 ≤ 5) ∧
      ((3 : Int) ≤ 5 → (5 : Int) < 3 + 3 →
        Repo.ReserveStock "o" [⟨"A", "n", "c", 5, 1⟩] [⟨"A", 3⟩, ⟨"A", 3⟩] =
          .error (.insufficientStock "A" (5 - 3) 3))) :=
  ⟨by decide, spec_C10 "o" "A" "n" "c" 1 5 3 3 (by decide)⟩

/-- C4: after any successful reservation, releasing the same line items
succeeds (release has no insufficient-stock failure path: it is a total
operation) and restores every item's quantity to exactly its
pre-reservation value — the whole ledger returns to its prior state. -/
theorem spec_C4 (oid oid' : String) (l l' : Ledger) (rs : List ReservedItem)
    (h : Repo.ReserveStock oid l rs = .ok l') :
    Repo.ReleaseStock oid' l' rs = l := by
  have hl' : l' = reserveResultLedger l rs := reserveLoop_ok_eq rs l l' h
  subst hl'
  rw [releaseStock_eq_map]
  unfold reserveResultLedger
  rw [List.map_map]
  refine Eq.trans (List.map_congr_left ?_) (List.map_id' l)
  intro it _
  cases it
  simp only [Function.comp, Item.mk.injEq, true_and, and_true]
  omega

/-- Witness for C4: reserving 3 of 5 units and releasing them returns
the ledger to its starting state. -/
theorem spec_C4_witness :
    Repo.ReserveStock "o1" [⟨"A", "n", "c", 5, 1⟩] [⟨"A", 3⟩] =
        .ok [⟨"A", "n", "c", 2, 1⟩] ∧
      Repo.ReleaseStock "o2" [⟨"A", "n", "c", 2, 1⟩] [⟨"A", 3⟩] =
        [⟨"A", "n", "c", 5, 1⟩] :=
  ⟨rfl,
    spec_C4 "o1" "o2" [⟨"A", "n", "c", 5, 1⟩] [⟨"A", "n", "c", 2, 1⟩] [⟨"A", 3⟩]
      rfl⟩

/-- C5: creating an item whose `item_id` already exists is a no-op that
keeps the row stored by the first call and reports no error (the
operation is total): a second `createItem` with the same id, whatever
its other attributes, leaves the ledger exactly as the first left it. -/
theorem spec_C5 (l : Ledger) (it1 it2 : Item) (hid : it2.itemID = it1.itemID) :
    Repo.CreateItem (Repo.CreateItem l it1) it2 = Repo.CreateItem l it1 := by
  unfold Repo.CreateItem
  by_cases h : l.any (fun it => it.itemID = it1.itemID) = true
  · rw [if_pos h, if_pos (by rw [hid]; exact h)]
  · rw [if_neg h]
    have hany : (l ++ [it1]).any (fun it => it.itemID = it2.itemID) = true := by
      simp [hid]
    rw [if_pos hany]

/-- Witness for C5: creating `"A"` twice with different attributes keeps
the first call's row. -/
theorem spec_C5_witness :
    (Item.mk "A" "n2" "c2" 9 2).itemID = (Item.mk "A" "n1" "c1" 7 1).itemID ∧
      Repo.CreateItem (Repo.CreateItem [] ⟨"A", "n1", "c1", 7, 1⟩) ⟨"A", "n2", "c2", 9, 2⟩ =
        Repo.CreateItem [] ⟨"A", "n1", "c1", 7, 1⟩ :=
  ⟨by decide, spec_C5 [] ⟨"A", "n1", "c1", 7, 1⟩ ⟨"A", "n2", "c2", 9, 2⟩ (by decide)⟩

/-- C2 counterexample: `UpdateStock` applies a manual delta with no
lower-bound check, so a negative delta larger than the current quantity
commits a negative quantity: from quantity 3, delta −5 persists −2. -/
theorem spec_C2_counterexample :
    Repo.UpdateStock [⟨"BOOK-001", "The Great Gatsby", "Fiction", 3, 15⟩] "BOOK-001" (-5) =
        .ok (-2, [⟨"BOOK-001", "The Great Gatsby", "Fiction", -2, 15⟩]) ∧
      qty? [⟨"BOOK-001", "The Great Gatsby", "Fiction", -2, 15⟩] "BOOK-001" = some (-2) ∧
      ¬ NonnegLedger [⟨"BOOK-001", "The Great Gatsby", "Fiction", -2, 15⟩] :=
  ⟨rfl, rfl, by decide⟩

/-- C2 amended: every committed operation except a manual stock
adjustment preserves `quantity ≥ 0` — reservation and deletion
unconditionally, release and creation when the supplied quantities are
nonnegative — while `updateStock` preserves it only when the returned
new quantity is itself nonnegative (it applies the delta unchecked).
Ledgers are assumed well-formed (distinct `item_id`s, the table's
primary key). -/
theorem spec_C2 :
    (∀ (oid : String) (l : Ledger) (rs : List ReservedItem),
      (l.map Item.itemID).Nodup → NonnegLedger l →
      NonnegLedger (Repo.reserveStockFinal oid l rs)) ∧
    (∀ (oid : String) (l : Ledger) (rs : List ReservedItem),
      NonnegLedger l → (∀ ri ∈ rs, 0 ≤ ri.quantity) →
      NonnegLedger (Repo.ReleaseStock oid l rs)) ∧
    (∀ (l : Ledger) (item : Item),
      NonnegLedger l → 0 ≤ item.quantity →
      NonnegLedger (Repo.CreateItem l item)) ∧
    (∀ (l : Ledger) (id : String) (l' : Ledger),
      NonnegLedger l → Repo.DeleteItem l id = .ok l' → NonnegLedger l') ∧
    (∀ (l : Ledger) (id : String) (d q : Int) (l' : Ledger),
      (l.map Item.itemID).Nodup → NonnegLedger l →
      Repo.UpdateStock l id d = .ok (q, l') → 0 ≤ q → NonnegLedger l') := by
  refine ⟨?_, ?_, ?_, ?_, ?_⟩
  · intro oid l rs hnd hnn
    unfold Repo.reserveStockFinal
    rcases hres : Repo.ReserveStock oid l rs with e | l'
    · exact hnn
    · exact reserveLoop_nonneg rs l l' hnd hnn hres
  · intro oid l rs hnn hq
    exact releaseStock_nonneg oid l rs hnn hq
  · intro l item hnn hq
    unfold Repo.CreateItem
    by_cases h : l.any (fun it => it.itemID = item.itemID) = true
    · rw [if_pos h]
      exact hnn
    · rw [if_neg h]
      intro it hit
      rcases List.mem_append.mp hit with hl | hr
      · exact hnn it hl
      · rw [List.mem_singleton.mp hr]
        exact hq
  · intro l id l' hnn hdel
    unfold Repo.DeleteItem at hdel
    by_cases h : l.any (fun it => it.itemID = id) = true
    · rw [if_pos h] at hdel
      have : l.filter (fun it => ¬ it.itemID = id) = l' := by simpa using hdel
      intro it hit
      rw [← this] at hit
      exact hnn it (List.mem_of_mem_filter hit)
    · rw [if_neg h] at hdel
      exact absurd hdel (by simp)
  · intro l id d q l' hnd hnn hupd hq
    unfold Repo.UpdateStock at hupd
    rcases hfind : findItem l id with _ | it0
    · rw [hfind] at hupd
      exact absurd hupd (by simp)
    · rw [hfind] at hupd
      have hqeq : it0.quantity + d = q := by
        have := (Except.ok.injEq _ _).mp hupd
        exact congrArg Prod.fst this
      have hleq : applyDelta l id d = l' := by
        have := (Except.ok.injEq _ _).mp hupd
        exact congrArg Prod.snd this
      intro r hr
      rw [← hleq] at hr
      rcases List.mem_map.mp hr with ⟨r0, hr0, rfl⟩
      by_cases hc : r0.itemID = id
      · have hfr0 : findItem l id = some r0 := by
          rw [← hc]
          exact findItem_of_nodup l hnd r0 hr0
        have hr0eq : r0 = it0 := by
          rw [hfr0] at hfind
          simpa using hfind
        rw [if_pos hc, hr0eq]
        show 0 ≤ it0.quantity + d
        omega
      · rw [if_neg hc]
        exact hnn r0 hr0

/-- Witness for C2 amended: a failed reservation leaves the nonnegative
ledger nonnegative, and a manual adjustment whose result stays
nonnegative commits a nonnegative ledger. -/
theorem spec_C2_witness :
    ((([⟨"A", "n", "c", 2, 1⟩] : Ledger).map Item.itemID).Nodup ∧
      NonnegLedger [⟨"A", "n", "c", 2, 1⟩] ∧
      NonnegLedger (Repo.reserveStockFinal "o" [⟨"A", "n", "c", 2, 1⟩] [⟨"A", 5⟩])) ∧
    (Repo.UpdateStock [⟨"A", "n", "c", 2, 1⟩] "A" (-1) =
        .ok (1, [⟨"A", "n", "c", 1, 1⟩]) ∧
      NonnegLedger [⟨"A", "n", "c", 1, 1⟩]) :=
  ⟨⟨by decide, by decide,
      spec_C2.1 "o" [⟨"A", "n", "c", 2, 1⟩] [⟨"A", 5⟩] (by decide) (by decide)⟩,
    (by
      have hupd : Repo.UpdateStock [⟨"A", "n", "c", 2, 1⟩] "A" (-1) =
          .ok (1, [⟨"A", "n", "c", 1, 1⟩]) := rfl
      exact ⟨hupd,
        spec_C2.2.2.2.2 [⟨"A", "n", "c", 2, 1⟩] "A" (-1) 1 [⟨"A", "n", "c", 1, 1⟩]
          (by decide) (by decide) hupd (by decide)⟩)⟩

/-- C3 counterexample: on an insufficient-stock failure the handler's
structured response carries `success = false` and a message but leaves
`failed_items` empty — the failing item `"A"` is not listed. -/
theorem spec_C3_counterexample :
    Server.ReserveStock [⟨"A", "n", "c", 1, 1⟩] "o1" [⟨"A", 2⟩] true =
        .ok (⟨false,
          "Failed to reserve stock: insufficient stock for item A: available=1, requested=2",
          []⟩, [⟨"A", "n", "c", 1, 1⟩]) ∧
      (Server.ReserveStockResponse.mk false
        "Failed to reserve stock: insufficient stock for item A: available=1, requested=2"
        []).failedItems = [] :=
  ⟨rfl, rfl⟩

/-- C3 amended: the `ReserveStock` handler never raises a
transport-level fault for a reservation failure; it returns a structured
outcome with `success = false` and a message naming the failure, while
the response's `failed_items` list is always left empty (the handler
never populates it). -/
theorem spec_C3 (l : Ledger) (oid : String) (items : List ReservedItem)
    (pubOk : Bool) (e : Repo.ReserveError)
    (h : Repo.ReserveStock oid l items = .error e) :
    Server.ReserveStock l oid items pubOk =
      .ok (⟨false, "Failed to reserve stock: " ++ e.message, []⟩, l) := by
  unfold Server.ReserveStock
  rw [h]

/-- Witness for C3 amended at a concrete insufficient-stock failure. -/
theorem spec_C3_witness :
    Repo.ReserveStock "o1" [⟨"A", "n", "c", 1, 1⟩] [⟨"A", 2⟩] =
        .error (.insufficientStock "A" 1 2) ∧
      Server.ReserveStock [⟨"A", "n", "c", 1, 1⟩] "o1" [⟨"A", 2⟩] false =
        .ok (⟨false,
          "Failed to reserve stock: " ++ (Repo.ReserveError.insufficientStock "A" 1 2).message,
          []⟩, [⟨"A", "n", "c", 1, 1⟩]) :=
  ⟨rfl,
    spec_C3 [⟨"A", "n", "c", 1, 1⟩] "o1" [⟨"A", 2⟩] false
      (.insufficientStock "A" 1 2) rfl⟩

/-- C7: once the repository mutation commits, the handler's response is
the same whether the subsequent event publication succeeds or fails:
`ReserveStock` answers `success = true` with the committed ledger for
every publish outcome, and likewise `ReleaseStock` and `UpdateStock` —
a publish failure never alters the RPC outcome or the committed
state. -/
theorem spec_C7 :
    (∀ (l : Ledger) (oid : String) (items : List ReservedItem) (l' : Ledger)
        (pubOk : Bool),
      Repo.ReserveStock oid l items = .ok l' →
      Server.ReserveStock l oid items pubOk =
        .ok (⟨true, "Stock reserved successfully", []⟩, l')) ∧
    (∀ (l : Ledger) (oid : String) (items : List ReservedItem) (pubOk : Bool),
      Server.ReleaseStock l oid items pubOk =
        .ok (⟨true, "Stock released successfully"⟩, Repo.ReleaseStock oid l items)) ∧
    (∀ (l : Ledger) (id : String) (d q : Int) (l' : Ledger) (pubOk : Bool),
      Repo.UpdateStock l id d = .ok (q, l') →
      Server.UpdateStock l id d pubOk = .ok (⟨true, "Stock updated successfully", q⟩, l')) := by
  refine ⟨?_, ?_, ?_⟩
  · intro l oid items l' pubOk h
    unfold Server.ReserveStock
    rw [h]
  · intro l oid items pubOk
    rfl
  · intro l id d q l' pubOk h
    unfold Server.UpdateStock
    rw [h]

/-- Witness for C7: with the publish outcome forced to failure
(`pubOk = false`), a committed reservation still answers
`success = true` with the decremented ledger. -/
theorem spec_C7_witness :
    Repo.ReserveStock "o" [⟨"A", "n", "c", 5, 1⟩] [⟨"A", 3⟩] =
        .ok [⟨"A", "n", "c", 2, 1⟩] ∧
      Server.ReserveStock [⟨"A", "n", "c", 5, 1⟩] "o" [⟨"A", 3⟩] false =
        .ok (⟨true, "Stock reserved successfully", []⟩, [⟨"A", "n", "c", 2, 1⟩]) := by
  have h : Repo.ReserveStock "o" [⟨"A", "n", "c", 5, 1⟩] [⟨"A", 3⟩] =
      .ok [⟨"A", "n", "c", 2, 1⟩] := rfl
  exact ⟨h, spec_C7.1 [⟨"A", "n", "c", 5, 1⟩] "o" [⟨"A", 3⟩] [⟨"A", "n", "c", 2, 1⟩] false h⟩

/-- C8: the consumer acks an `order.created` message whose reservation
commits, nacks with requeue on any reservation failure (insufficient
stock and other repository errors alike, undistinguished) leaving the
ledger unchanged, and nacks without requeue — mutating nothing — on an
unparsable `order.created` payload or an unknown routing key. -/
theorem spec_C8 :
    (∀ (l : Ledger) (msg : Consumer.Message) (ev : Consumer.OrderCreatedPayload)
        (l' : Ledger),
      msg.routingKey = "order.created" → msg.orderCreated? = some ev →
      Repo.ReserveStock ev.orderID l
          (ev.items.map (fun it => ReservedItem.mk it.sku it.quantity)) = .ok l' →
      Consumer.handleMessage l msg = (.ack, l')) ∧
    (∀ (l : Ledger) (msg : Consumer.Message) (ev : Consumer.OrderCreatedPayload)
        (e : Repo.ReserveError),
      msg.routingKey = "order.created" → msg.orderCreated? = some ev →
      Repo.ReserveStock ev.orderID l
          (ev.items.map (fun it => ReservedItem.mk it.sku it.quantity)) = .error e →
      Consumer.handleMessage l msg = (.nackRequeue, l)) ∧
    (∀ (l : Ledger) (msg : Consumer.Message),
      msg.routingKey = "order.created" → msg.orderCreated? = none →
      Consumer.handleMessage l msg = (.nackDiscard, l)) ∧
    (∀ (l : Ledger) (msg : Consumer.Message),
      msg.routingKey ≠ "order.created" → msg.routingKey ≠ "order.cancelled" →
      msg.routingKey ≠ "catalog.created" → msg.routingKey ≠ "catalog.deleted" →
      Consumer.handleMessage l msg = (.nackDiscard, l)) := by
  refine ⟨?_, ?_, ?_, ?_⟩
  · intro l msg ev l' hkey hev hres
    unfold Consumer.handleMessage
    rw [if_pos hkey]
    unfold Consumer.handleOrderCreated
    rw [hev]
    simp only [hres]
  · intro l msg ev e hkey hev hres
    unfold Consumer.handleMessage
    rw [if_pos hkey]
    unfold Consumer.handleOrderCreated
    rw [hev]
    simp only [hres]
  · intro l msg hkey hev
    unfold Consumer.handleMessage
    rw [if_pos hkey]
    unfold Consumer.handleOrderCreated
    rw [hev]
  · intro l msg h1 h2 h3 h4
    unfold Consumer.handleMessage
    rw [if_neg h1, if_neg h2, if_neg h3, if_neg h4]

/-- Witness for C8: an `order.created` message requesting 2 units of an
item holding 1 is nacked with requeue and the ledger is unchanged; a
message with an unknown routing key is nacked without requeue. -/
theorem spec_C8_witness :
    (Repo.ReserveStock "o1" [⟨"A", "n", "c", 1, 1⟩] [⟨"A", 2⟩] =
        .error (.insufficientStock "A" 1 2) ∧
      Consumer.handleMessage [⟨"A", "n", "c", 1, 1⟩]
          ⟨"order.created", some ⟨"o1", "u1", [⟨"A", 2, 1⟩]⟩, none, none, none⟩ =
        (.nackRequeue, [⟨"A", "n", "c", 1, 1⟩])) ∧
    Consumer.handleMessage [⟨"A", "n", "c", 1, 1⟩]
        ⟨"payment.settled", none, none, none, none⟩ =
      (.nackDiscard, [⟨"A", "n", "c", 1, 1⟩]) := by
  have h : Repo.ReserveStock "o1" [⟨"A", "n", "c", 1, 1⟩] [⟨"A", 2⟩] =
      .error (.insufficientStock "A" 1 2) := rfl
  refine ⟨⟨h, ?_⟩, ?_⟩
  · exact spec_C8.2.1 [⟨"A", "n", "c", 1, 1⟩]
      ⟨"order.created", some ⟨"o1", "u1", [⟨"A", 2, 1⟩]⟩, none, none, none⟩
      ⟨"o1", "u1", [⟨"A", 2, 1⟩]⟩ (.insufficientStock "A" 1 2) rfl rfl h
  · exact spec_C8.2.2.2 [⟨"A", "n", "c", 1, 1⟩]
      ⟨"payment.settled", none, none, none, none⟩
      (by decide) (by decide) (by decide) (by decide)

/-- C9: for an absent item, `CheckAvailability` answers a normal
response with `available = false`, quantity 0 and the message
`"Item not found"` — no fault — while `GetItem` raises a `NotFound`
transport-level fault. -/
theorem spec_C9 (l : Ledger) (id : String) (req : Int)
    (h : findItem l id = none) :
    Server.CheckAvailability l id req = .ok ⟨false, 0, "Item not found"⟩ ∧
      Server.GetItem l id = .error ⟨.notFound, "item not found: " ++ id⟩ := by
  unfold Server.CheckAvailability Server.GetItem
  rw [h]
  exact ⟨rfl, rfl⟩

/-- Witness for C9 at an empty ledger. -/
theorem spec_C9_witness :
    findItem [] "Z" = none ∧
      (Server.CheckAvailability [] "Z" 1 = .ok ⟨false, 0, "Item not found"⟩ ∧
        Server.GetItem [] "Z" = .error ⟨.notFound, "item not found: " ++ "Z"⟩) :=
  ⟨rfl, spec_C9 [] "Z" 1 rfl⟩

/-! ### Lemmas about the catalog publisher's retry loop -/

theorem retryGo_attempts_le (env : CatalogEvents.PublishEnv) :
    ∀ (fuel attempt backoff : Nat),
      (CatalogEvents.retryGo env fuel attempt backoff).attempts ≤ fuel
  | 0, _, _ => Nat.le_refl 0
  | 1, attempt, backoff => by
      rcases hout : env.outcome attempt with _ | _ | _ | _ | _ <;>
        simp [CatalogEvents.retryGo, hout]
  | fuel + 2, attempt, backoff => by
      rcases hout : env.outcome attempt with _ | _ | _ | _ | _ <;>
        simp only [CatalogEvents.retryGo, hout]
      case acked => simp
      case ctxDoneAtConfirm => simp
      all_goals
        by_cases hc : env.cancelledBefore (attempt + 1) = true
      all_goals
        first
        | (rw [if_pos hc]; simp)
        | (rw [if_neg hc]
           have hrec := retryGo_attempts_le env (fuel + 1) (attempt + 1)
             (min (backoff * 2) CatalogEvents.maxBackoff)
           show (CatalogEvents.retryGo env (fuel + 1) (attempt + 1)
             (min (backoff * 2) CatalogEvents.maxBackoff)).attempts + 1 ≤ fuel + 2
           omega)

theorem retryGo_exhausted (env : CatalogEvents.PublishEnv) :
    ∀ (fuel attempt backoff : Nat),
      (CatalogEvents.retryGo env fuel attempt backoff).result = .exhausted →
      (CatalogEvents.retryGo env fuel attempt backoff).attempts = fuel ∧
        ∀ k < fuel, env.outcome (attempt + k) ≠ .acked
  | 0, attempt, backoff => fun _ =>
      ⟨rfl, fun k hk => absurd hk (by omega)⟩
  | 1, attempt, backoff => by
      intro h
      rcases hout : env.outcome attempt with _ | _ | _ | _ | _ <;>
        simp only [CatalogEvents.retryGo, hout] at h ⊢
      case acked => exact absurd h (by simp)
      case ctxDoneAtConfirm => exact absurd h (by simp)
      all_goals
        refine ⟨by trivial, fun k hk => ?_⟩
      all_goals
        have hk0 : k = 0 := by omega
      all_goals
        rw [hk0, Nat.add_zero, hout]
      all_goals
        simp
  | fuel + 2, attempt, backoff => by
      intro h
      rcases hout : env.outcome attempt with _ | _ | _ | _ | _ <;>
        simp only [CatalogEvents.retryGo, hout] at h ⊢
      case acked => exact absurd h (by simp)
      case ctxDoneAtConfirm => exact absurd h (by simp)
      all_goals
        by_cases hc : env.cancelledBefore (attempt + 1) = true
      all_goals
        first
        | (rw [if_pos hc] at h; exact absurd h (by simp))
        | (rw [if_neg hc] at h ⊢
           have h' : (CatalogEvents.retryGo env (fuel + 1) (attempt + 1)
               (min (backoff * 2) CatalogEvents.maxBackoff)).result = .exhausted := h
           have hrec := retryGo_exhausted env (fuel + 1) (attempt + 1)
             (min (backoff * 2) CatalogEvents.maxBackoff) h'
           refine ⟨?_, fun k hk => ?_⟩
           · show (CatalogEvents.retryGo env (fuel + 1) (attempt + 1)
               (min (backoff * 2) CatalogEvents.maxBackoff)).attempts + 1 = fuel + 2
             omega
           · match k with
             | 0 =>
               rw [Nat.add_zero, hout]
               simp
             | j + 1 =>
               have hj : attempt + (j + 1) = attempt + 1 + j := by omega
               rw [hj]
               exact hrec.2 j (by omega))

theorem min_double_backoff (b c k : Nat) :
    min (min (b * 2) c * 2 ^ k) c = min (b * 2 ^ (k + 1)) c := by
  rcases Nat.le_total (b * 2) c with h | h
  · rw [Nat.min_eq_left h]
    have : b * 2 * 2 ^ k = b * 2 ^ (k + 1) := by ring
    rw [this]
  · rw [Nat.min_eq_right h]
    have h2k : 1 ≤ 2 ^ k := Nat.one_le_two_pow
    have hl : c ≤ c * 2 ^ k := Nat.le_mul_of_pos_right c (by omega)
    rw [Nat.min_eq_right hl]
    have hcb : c ≤ b * 2 ^ (k + 1) := by
      have hb2 : b * 2 ^ (k + 1) = b * 2 * 2 ^ k := by ring
      rw [hb2]
      calc c ≤ b * 2 := h
        _ ≤ b * 2 * 2 ^ k := Nat.le_mul_of_pos_right _ (by omega)
    rw [Nat.min_eq_right hcb]

theorem retryGo_sleeps (env : CatalogEvents.PublishEnv) :
    ∀ (fuel attempt backoff : Nat), backoff ≤ CatalogEvents.maxBackoff →
      (CatalogEvents.retryGo env fuel attempt backoff).sleeps =
        (List.range (CatalogEvents.retryGo env fuel attempt backoff).sleeps.length).map
          (fun k => min (backoff * 2 ^ k) CatalogEvents.maxBackoff)
  | 0, attempt, backoff => fun _ => rfl
  | 1, attempt, backoff => by
      intro hb
      rcases hout : env.outcome attempt with _ | _ | _ | _ | _ <;>
        simp [CatalogEvents.retryGo, hout]
  | fuel + 2, attempt, backoff => by
      intro hb
      rcases hout : env.outcome attempt with _ | _ | _ | _ | _ <;>
        simp only [CatalogEvents.retryGo, hout]
      case acked => rfl
      case ctxDoneAtConfirm => rfl
      all_goals
        by_cases hc : env.cancelledBefore (attempt + 1) = true
      all_goals
        first
        | (rw [if_pos hc]; rfl)
        | (rw [if_neg hc]
           have hb' : min (backoff * 2) CatalogEvents.maxBackoff ≤ CatalogEvents.maxBackoff :=
             Nat.min_le_right _ _
           have hrec := retryGo_sleeps env (fuel + 1) (attempt + 1)
             (min (backoff * 2) CatalogEvents.maxBackoff) hb'
           show backoff :: (CatalogEvents.retryGo env (fuel + 1) (attempt + 1)
               (min (backoff * 2) CatalogEvents.maxBackoff)).sleeps =
             (List.range ((backoff :: (CatalogEvents.retryGo env (fuel + 1) (attempt + 1)
               (min (backoff * 2) CatalogEvents.maxBackoff)).sleeps).length)).map
               (fun k => min (backoff * 2 ^ k) CatalogEvents.maxBackoff)
           rw [List.length_cons, List.range_succ_eq_map, List.map_cons, List.map_map]
           have hhead : min (backoff * 2 ^ 0) CatalogEvents.maxBackoff = backoff := by
             rw [pow_zero, Nat.mul_one]
             exact Nat.min_eq_left hb
           rw [hhead]
           refine congrArg (backoff :: ·) ?_
           conv_lhs => rw [hrec]
           refine List.map_congr_left (fun k _ => ?_)
           show min (min (backoff * 2) CatalogEvents.maxBackoff * 2 ^ k)
               CatalogEvents.maxBackoff =
             min (backoff * 2 ^ (k + 1)) CatalogEvents.maxBackoff
           exact min_double_backoff backoff CatalogEvents.maxBackoff k)

/-- C6 counterexample: the inventory service's `PublishEvent` performs a
single unconfirmed send and returns the failure after exactly one
attempt — no retry — although the same environment would have succeeded
on a second attempt under the catalog publisher's retry loop. -/
theorem spec_C6_counterexample :
    (InventoryEvents.PublishEvent false).1 = .error "failed to publish event" ∧
      (InventoryEvents.PublishEvent false).2 = 1 ∧
      1 < CatalogEvents.maxRetries ∧
      (CatalogEvents.publishWithRetry
          ⟨fun _ => false, fun n => if n = 0 then .sendError else .acked⟩).result =
        .published ∧
      (CatalogEvents.publishWithRetry
          ⟨fun _ => false, fun n => if n = 0 then .sendError else .acked⟩).attempts = 2 :=
  ⟨rfl, rfl, by decide, rfl, rfl⟩

/-- C6 amended: the catalog publisher's `publishWithRetry` sends at most
`maxRetries` attempts; when it exhausts them it has used exactly
`maxRetries` attempts, none of which was acknowledged, and it reports a
terminal failure; the backoff slept before the k-th retry is
`initialBackoff · 2^k` capped at `maxBackoff`; cancellation between
attempts aborts the loop with the context's error; the inventory
publisher's `PublishEvent`, by contrast, performs exactly one
unconfirmed send and fails terminally on a single send failure. -/
theorem spec_C6 :
    (∀ env : CatalogEvents.PublishEnv,
      (CatalogEvents.publishWithRetry env).attempts ≤ CatalogEvents.maxRetries) ∧
    (∀ env : CatalogEvents.PublishEnv,
      (CatalogEvents.publishWithRetry env).result = .exhausted →
      (CatalogEvents.publishWithRetry env).attempts = CatalogEvents.maxRetries ∧
        ∀ k < CatalogEvents.maxRetries, env.outcome k ≠ .acked) ∧
    (∀ env : CatalogEvents.PublishEnv,
      (CatalogEvents.publishWithRetry env).sleeps =
        (List.range (CatalogEvents.publishWithRetry env).sleeps.length).map
          (fun k => min (CatalogEvents.initialBackoff * 2 ^ k) CatalogEvents.maxBackoff)) ∧
    (∀ env : CatalogEvents.PublishEnv,
      (env.outcome 0 = .sendError ∨ env.outcome 0 = .nacked ∨
          env.outcome 0 = .confirmTimeout) →
      env.cancelledBefore 1 = true →
      CatalogEvents.publishWithRetry env = ⟨.ctxError, 1, []⟩) ∧
    (∀ sendOk : Bool,
      (InventoryEvents.PublishEvent sendOk).2 = 1 ∧
        ((InventoryEvents.PublishEvent sendOk).1 = .ok () ↔ sendOk = true)) := by
  refine ⟨?_, ?_, ?_, ?_, ?_⟩
  · intro env
    exact retryGo_attempts_le env CatalogEvents.maxRetries 0 CatalogEvents.initialBackoff
  · intro env h
    have hrec := retryGo_exhausted env CatalogEvents.maxRetries 0
      CatalogEvents.initialBackoff h
    refine ⟨hrec.1, fun k hk => ?_⟩
    have := hrec.2 k hk
    rwa [Nat.zero_add] at this
  · intro env
    exact retryGo_sleeps env CatalogEvents.maxRetries 0 CatalogEvents.initialBackoff
      (by decide)
  · intro env hout hc
    show CatalogEvents.retryGo env 3 0 100 = ⟨.ctxError, 1, []⟩
    rcases hout with h | h | h <;>
      simp [CatalogEvents.retryGo, h, hc]
  · intro sendOk
    cases sendOk <;> simp [InventoryEvents.PublishEvent]

/-- Witness for C6 amended: an always-nacked environment exhausts all
three attempts with none acknowledged, and a cancelled context after a
first send failure aborts with the context error after one attempt. -/
theorem spec_C6_witness :
    ((CatalogEvents.publishWithRetry
          ⟨fun _ => false, fun _ => .nacked⟩).result = .exhausted ∧
      (CatalogEvents.publishWithRetry
            ⟨fun _ => false, fun _ => .nacked⟩).attempts = CatalogEvents.maxRetries ∧
        ∀ k < CatalogEvents.maxRetries,
          (⟨fun _ => false, fun _ => .nacked⟩ : CatalogEvents.PublishEnv).outcome k ≠
            .acked) ∧
    ((⟨fun _ => true, fun _ => .sendError⟩ :
          CatalogEvents.PublishEnv).cancelledBefore 1 = true ∧
      CatalogEvents.publishWithRetry ⟨fun _ => true, fun _ => .sendError⟩ =
        ⟨.ctxError, 1, []⟩) :=
  ⟨⟨rfl, spec_C6.2.1 ⟨fun _ => false, fun _ => .nacked⟩ rfl⟩,
    ⟨rfl, spec_C6.2.2.2.1 ⟨fun _ => true, fun _ => .sendError⟩ (Or.inl rfl) rfl⟩⟩

end BookStore
